import Mathlib

/-!
Shallow embedding of src/find_oldest_sstable.py.

The script walks a three-level directory hierarchy (keyspace, table,
arbitrary-depth file tree) under a fixed base path, skipping a fixed list of
system keyspaces, and reports the file named Data.db with the smallest
modification time.

The filesystem is modelled as a tree of nodes.  A file node carries the
outcome of reading its modification time (os.path.getmtime): success with a
timestamp, FileNotFoundError, PermissionError, or any other exception.  A
directory node carries the outcome of listing it (os.listdir / os.scandir
inside os.walk): either success with a named child list, or an error
(permission or other).  A linkDir node is a symbolic link whose target is a
directory: os.path.isdir follows it, listing it follows it, but
os.walk with its default followlinks=False does not descend through it when
it is met inside a walk.

Python exception flow modelled:
  - os.walk with the default onerror=None swallows every listing error met
    during the walk: the failed directory yields nothing and the walk goes on;
  - os.listdir at the base and keyspace levels raises, and the raised error
    propagates to the outer try of find_oldest_sstable_globally;
  - os.path.getmtime raising FileNotFoundError is caught by the inner
    try and skipped; every other exception it raises propagates to the
    outer try, where PermissionError prints the permission message and
    anything else prints the unexpected-error message, both ending the scan.

The embedding also records a trace: the list of directory paths on which a
listing call was attempted, in order.  Paths are lists of components; the
base path is the single component base_cassandra_path.
-/

namespace FindOldestSSTable

/-- A path, as the list of its components. -/
abbrev Path := List String

/-- Outcome of os.path.getmtime on one file: a timestamp in seconds,
FileNotFoundError, PermissionError, or any other exception. -/
inductive StatRes where
  | ok (t : Int)
  | notFound
  | permErr
  | otherErr
deriving DecidableEq

/-- An error raised while listing a directory: PermissionError or any
other OSError. -/
inductive FsErr where
  | perm
  | other
deriving DecidableEq

/-- A filesystem node.  dir and linkDir carry the result of listing them:
some e means listing raises e, none means listing returns the children. -/
inductive Node where
  | file (s : StatRes)
  | dir (perm : Option FsErr) (children : List (String × Node))
  | linkDir (perm : Option FsErr) (children : List (String × Node))

/-- The fixed base path of the scan (base_cassandra_path in the script). -/
def base_cassandra_path : String := "/mnt/cassandra"

/-- The fixed excluded keyspace list (system_keyspaces in the script). -/
def system_keyspaces : List String :=
  ["system", "system_schema", "system_auth",
   "system_distributed", "system_traces", "system_views"]

/-- os.path.isdir on an existing entry: true for a directory and for a
symbolic link to a directory (isdir follows links). -/
def isDirLike : Node → Bool
  | .file _ => false
  | .dir _ _ => true
  | .linkDir _ _ => true

/-- A directory that is not a symbolic link: os.walk descends into these
children only (followlinks=False). -/
def isRealDir : Node → Bool
  | .dir _ _ => true
  | _ => false

/-- Listing outcome and children of a dir-like node. -/
def nodeChildren : Node → Option FsErr × List (String × Node)
  | .file _ => (none, [])
  | .dir perm cs => (perm, cs)
  | .linkDir perm cs => (perm, cs)

/-- The names that os.walk reports in its dirs list: children that are
directories or symbolic links to directories. -/
def dirNames (cs : List (String × Node)) : List String :=
  (cs.filter fun c => isDirLike c.2).map Prod.fst

/-- The entries that os.walk reports in its files list, with the stat
outcome of each. -/
def fileEntries (cs : List (String × Node)) : List (String × StatRes) :=
  cs.filterMap fun c =>
    match c.2 with
    | .file s => some (c.1, s)
    | _ => none

/-- A candidate: absolute path of a Data.db file and its modification time. -/
abbrev Cand := Path × Int

/-- One triple yielded by os.walk: root path, dirs names, files with stats. -/
abbrev Triple := Path × List String × List (String × StatRes)

/-- The running-minimum update of the script: the sentinel
oldest_file_time = inf means every first timestamp wins, and a later
candidate replaces the current one only when strictly smaller. -/
def updateMin (cand : Option Cand) (p : Path) (m : Int) : Option Cand :=
  match cand with
  | none => some (p, m)
  | some (p0, m0) => if m < m0 then some (p, m) else some (p0, m0)

/-- The body of the walk loop for one yielded triple: if Data.db is among
the files, read its modification time; on success update the running
minimum, on FileNotFoundError skip, on any other exception raise it. -/
def stepTriple (cand : Option Cand) (t : Triple) : Except FsErr (Option Cand) :=
  match (t.2.2).lookup "Data.db" with
  | none => .ok cand
  | some (.ok m) => .ok (updateMin cand (t.1 ++ ["Data.db"]) m)
  | some .notFound => .ok cand
  | some .permErr => .error .perm
  | some .otherErr => .error .other

mutual

/-- os.walk over one table subtree, fused with the consuming loop: returns
the trace of directories on which a listing was attempted and either the
threaded running minimum or the first exception raised by a getmtime call.
A directory whose listing fails yields nothing (onerror=None). -/
def walkScan (p : Path) (n : Node) (cand : Option Cand) :
    List Path × Except FsErr (Option Cand) :=
  match n with
  | .file _ => ([p], .ok cand)
  | .dir (some _) _ => ([p], .ok cand)
  | .linkDir (some _) _ => ([p], .ok cand)
  | .dir none cs =>
    match stepTriple cand (p, dirNames cs, fileEntries cs) with
    | .error e => ([p], .error e)
    | .ok c =>
      let r := walkScanKids p cs c
      (p :: r.1, r.2)
  | .linkDir none cs =>
    match stepTriple cand (p, dirNames cs, fileEntries cs) with
    | .error e => ([p], .error e)
    | .ok c =>
      let r := walkScanKids p cs c
      (p :: r.1, r.2)

/-- The recursion of os.walk into the child directories, in listing order,
skipping children that are not directories and, because followlinks is
False, skipping symbolic links to directories. -/
def walkScanKids (p : Path) (cs : List (String × Node)) (cand : Option Cand) :
    List Path × Except FsErr (Option Cand) :=
  match cs with
  | [] => ([], .ok cand)
  | (name, c) :: rest =>
    if isRealDir c then
      match walkScan (p ++ [name]) c cand with
      | (tr, .error e) => (tr, .error e)
      | (tr, .ok c2) =>
        let r := walkScanKids p rest c2
        (tr ++ r.1, r.2)
    else walkScanKids p rest cand

end

/-- The table loop: every directory child of a keyspace (symbolic links
included, by the isdir test) is walked; other children are skipped. -/
def scanTables (p : Path) (cs : List (String × Node)) (cand : Option Cand) :
    List Path × Except FsErr (Option Cand) :=
  match cs with
  | [] => ([], .ok cand)
  | (name, c) :: rest =>
    if isDirLike c then
      match walkScan (p ++ [name]) c cand with
      | (tr, .error e) => (tr, .error e)
      | (tr, .ok c2) =>
        let r := scanTables p rest c2
        (tr ++ r.1, r.2)
    else scanTables p rest cand

/-- The keyspace loop: a child that is not a directory, or whose name is in
the excluded list, is skipped with its whole subtree; otherwise it is
listed with os.listdir, whose failure raises out of the loop. -/
def scanKeyspaces (p : Path) (excl : List String)
    (cs : List (String × Node)) (cand : Option Cand) :
    List Path × Except FsErr (Option Cand) :=
  match cs with
  | [] => ([], .ok cand)
  | (name, c) :: rest =>
    if !(isDirLike c) || excl.contains name then
      scanKeyspaces p excl rest cand
    else
      match (nodeChildren c).1 with
      | some e => ([p ++ [name]], .error e)
      | none =>
        match scanTables (p ++ [name]) (nodeChildren c).2 cand with
        | (tr, .error e) => ((p ++ [name]) :: tr, .error e)
        | (tr, .ok c2) =>
          let r := scanKeyspaces p excl rest c2
          ((p ++ [name]) :: (tr ++ r.1), r.2)

/-- The terminal message of one run of the script. -/
inductive ScanOutcome where
  | configError (path : String)
  | permissionDenied
  | unexpectedError
  | found (path : Path) (time : Int)
  | noneFound (root : String)
deriving DecidableEq

/-- find_oldest_sstable_globally, with the root node made explicit (none
models a missing base path, and a file node an existing non-directory) and
the excluded list a parameter.  Returns the terminal outcome and the trace
of attempted directory listings. -/
def find_oldest_sstable_globally (root : Option Node) (excl : List String) :
    ScanOutcome × List Path :=
  match root with
  | none => (.configError base_cassandra_path, [])
  | some n =>
    if isDirLike n then
      match (nodeChildren n).1 with
      | some .perm => (.permissionDenied, [[base_cassandra_path]])
      | some .other => (.unexpectedError, [[base_cassandra_path]])
      | none =>
        let r := scanKeyspaces [base_cassandra_path] excl (nodeChildren n).2 none
        (match r.2 with
         | .error .perm => .permissionDenied
         | .error .other => .unexpectedError
         | .ok (some c) => .found c.1 c.2
         | .ok none => .noneFound base_cassandra_path,
         [base_cassandra_path] :: r.1)
    else (.configError base_cassandra_path, [])

mutual

/-- The candidates (Data.db files with a successful stat) emitted by a walk
of one table subtree, in emission order. -/
def walkCands (p : Path) (n : Node) : List Cand :=
  match n with
  | .file _ => []
  | .dir (some _) _ => []
  | .linkDir (some _) _ => []
  | .dir none cs =>
    (match (fileEntries cs).lookup "Data.db" with
     | some (.ok m) => [(p ++ ["Data.db"], m)]
     | _ => []) ++ walkCandsKids p cs
  | .linkDir none cs =>
    (match (fileEntries cs).lookup "Data.db" with
     | some (.ok m) => [(p ++ ["Data.db"], m)]
     | _ => []) ++ walkCandsKids p cs

/-- Candidates contributed by the child directories of a walked directory. -/
def walkCandsKids (p : Path) (cs : List (String × Node)) : List Cand :=
  match cs with
  | [] => []
  | (name, c) :: rest =>
    (if isRealDir c then walkCands (p ++ [name]) c else []) ++ walkCandsKids p rest

end

/-- Candidates contributed by the tables of one keyspace. -/
def scanTablesCands (p : Path) (cs : List (String × Node)) : List Cand :=
  match cs with
  | [] => []
  | (name, c) :: rest =>
    (if isDirLike c then walkCands (p ++ [name]) c else []) ++ scanTablesCands p rest

/-- Candidates contributed by the keyspaces of the root. -/
def scanKeyspacesCands (p : Path) (excl : List String)
    (cs : List (String × Node)) : List Cand :=
  match cs with
  | [] => []
  | (name, c) :: rest =>
    (if !(isDirLike c) || excl.contains name then []
     else match (nodeChildren c).1 with
          | some _ => []
          | none => scanTablesCands (p ++ [name]) (nodeChildren c).2)
      ++ scanKeyspacesCands p excl rest

/-- All candidates the scan observes, in observation order. -/
def candidates (root : Option Node) (excl : List String) : List Cand :=
  match root with
  | none => []
  | some n =>
    if isDirLike n then
      match (nodeChildren n).1 with
      | some _ => []
      | none => scanKeyspacesCands [base_cassandra_path] excl (nodeChildren n).2
    else []

mutual

/-- No getmtime call made while walking this subtree raises an exception
other than FileNotFoundError (so the walk cannot abort the scan). -/
def walkOk (n : Node) : Bool :=
  match n with
  | .file _ => true
  | .dir (some _) _ => true
  | .linkDir (some _) _ => true
  | .dir none cs =>
    (match (fileEntries cs).lookup "Data.db" with
     | some .permErr => false
     | some .otherErr => false
     | _ => true) && walkOkKids cs
  | .linkDir none cs =>
    (match (fileEntries cs).lookup "Data.db" with
     | some .permErr => false
     | some .otherErr => false
     | _ => true) && walkOkKids cs

/-- walkOk over the child directories that the walk descends into. -/
def walkOkKids (cs : List (String × Node)) : Bool :=
  match cs with
  | [] => true
  | (_, c) :: rest => (!(isRealDir c) || walkOk c) && walkOkKids rest

end

/-- No table walk of this keyspace can abort the scan. -/
def tablesOk (cs : List (String × Node)) : Bool :=
  match cs with
  | [] => true
  | (_, c) :: rest => (!(isDirLike c) || walkOk c) && tablesOk rest

/-- No keyspace processing can abort the scan: every scanned keyspace lists
successfully and its table walks raise nothing. -/
def keyspacesOk (excl : List String) (cs : List (String × Node)) : Bool :=
  match cs with
  | [] => true
  | (name, c) :: rest =>
    (!(isDirLike c) || excl.contains name ||
      ((nodeChildren c).1 == none && tablesOk (nodeChildren c).2))
      && keyspacesOk excl rest

/-- The scan starts (the root is a directory that lists successfully) and
never aborts: it ends in found or noneFound. -/
def scanOk (root : Option Node) (excl : List String) : Bool :=
  match root with
  | none => false
  | some n =>
    isDirLike n && (nodeChildren n).1 == none && keyspacesOk excl (nodeChildren n).2

/-- The reduction of the script, as a fold of the running-minimum update
over an observed candidate list. -/
def foldMin (cand : Option Cand) (l : List Cand) : Option Cand :=
  l.foldl (fun c q => updateMin c q.1 q.2) cand

/-- The running minimum, when present, points at a file whose basename is
the target filename. -/
def endsData (c : Option Cand) : Prop :=
  ∀ p t, c = some (p, t) → p.getLast? = some "Data.db"

/-- Example tree: two keyspaces, two target files with distinct times. -/
def exampleTwoTimes : Node :=
  .dir none
    [("ks1", .dir none [("t1", .dir none [("Data.db", .file (.ok 30))])]),
     ("ks2", .dir none
       [("t2", .dir none [("sub", .dir none [("Data.db", .file (.ok 10))])])])]

/-- Example tree: a table subtree whose subdirectory fails to list with a
permission error while holding the oldest target file, next to a younger
target file that lists fine. -/
def examplePermDeep : Node :=
  .dir none
    [("ks", .dir none
      [("t", .dir none
        [("sub", .dir (some .perm) [("Data.db", .file (.ok 1))]),
         ("Data.db", .file (.ok 10))])])]

/-- Example tree family: a first table whose target file has the given stat
outcome, and a second table whose target file reads time 10. -/
def exampleStat (s : StatRes) : Node :=
  .dir none
    [("ks", .dir none
      [("t1", .dir none [("Data.db", .file s)]),
       ("t2", .dir none [("Data.db", .file (.ok 10))])])]

/-- Example tree: three tables; the first target file vanishes before its
stat, the others read 50 and 20. -/
def exampleVanish : Node :=
  .dir none
    [("ks", .dir none
      [("t1", .dir none [("Data.db", .file .notFound)]),
       ("t2", .dir none [("Data.db", .file (.ok 50))]),
       ("t3", .dir none [("Data.db", .file (.ok 20))])])]

/-- Example tree: two target files with the same modification time. -/
def exampleTie : Node :=
  .dir none
    [("ks1", .dir none [("t1", .dir none [("Data.db", .file (.ok 7))])]),
     ("ks2", .dir none [("t2", .dir none [("Data.db", .file (.ok 7))])])]

/-- Example tree: the only target file sits behind a symbolic link to a
directory placed inside a table subtree. -/
def exampleDeepLink : Node :=
  .dir none
    [("ks", .dir none
      [("t", .dir none
        [("link", .linkDir none [("Data.db", .file (.ok 1))])])])]

/-- Example tree: an excluded keyspace holding the oldest target file, next
to an ordinary keyspace. -/
def exampleExcluded : Node :=
  .dir none
    [("system", .dir none [("t", .dir none [("Data.db", .file (.ok 1))])]),
     ("ks", .dir none [("t", .dir none [("Data.db", .file (.ok 100))])])]

theorem foldMin_nil (cand : Option Cand) : foldMin cand [] = cand := rfl

theorem foldMin_cons (cand : Option Cand) (q : Cand) (l : List Cand) :
    foldMin cand (q :: l) = foldMin (updateMin cand q.1 q.2) l := rfl

theorem foldMin_append (cand : Option Cand) (l1 l2 : List Cand) :
    foldMin cand (l1 ++ l2) = foldMin (foldMin cand l1) l2 := by
  simp [foldMin, List.foldl_append]

theorem updateMin_isSome (cand : Option Cand) (p : Path) (m : Int) :
    (updateMin cand p m).isSome := by
  cases cand with
  | none => rfl
  | some c =>
    obtain ⟨p0, m0⟩ := c
    by_cases h : m < m0 <;> simp [updateMin, h]

theorem updateMin_le (cand : Option Cand) (p : Path) (m : Int) :
    ∀ c1, updateMin cand p m = some c1 →
      c1.2 ≤ m ∧ (∀ c0, cand = some c0 → c1.2 ≤ c0.2) ∧
        (c1 = (p, m) ∨ cand = some c1) := by
  intro c1 h
  cases cand with
  | none =>
    simp only [updateMin, Option.some.injEq] at h
    subst h
    simp
  | some c0 =>
    obtain ⟨p0, m0⟩ := c0
    by_cases hm : m < m0 <;> simp only [updateMin, hm, if_true, if_false,
      Option.some.injEq] at h <;> subst h <;> simp <;> omega

theorem foldMin_isSome (l : List Cand) :
    ∀ cand : Option Cand, (l ≠ [] ∨ cand.isSome) → (foldMin cand l).isSome := by
  induction l with
  | nil =>
    intro cand h
    rcases h with h | h
    · exact absurd rfl h
    · simpa [foldMin] using h
  | cons q l ih =>
    intro cand _
    rw [foldMin_cons]
    exact ih _ (Or.inr (updateMin_isSome cand q.1 q.2))

theorem foldMin_spec (l : List Cand) :
    ∀ (cand : Option Cand) (c1 : Cand), foldMin cand l = some c1 →
      (∀ q ∈ l, c1.2 ≤ q.2) ∧ (∀ c0, cand = some c0 → c1.2 ≤ c0.2) ∧
        (c1 ∈ l ∨ cand = some c1) := by
  induction l with
  | nil =>
    intro cand c1 h
    rw [foldMin_nil] at h
    subst h
    simp
  | cons q l ih =>
    intro cand c1 h
    rw [foldMin_cons] at h
    obtain ⟨hle, hc0, hmem⟩ := ih _ _ h
    have hupd : (updateMin cand q.1 q.2).isSome := updateMin_isSome cand q.1 q.2
    obtain ⟨cu, hcu⟩ := Option.isSome_iff_exists.mp hupd
    obtain ⟨hum, hu0, humem⟩ := updateMin_le cand q.1 q.2 cu hcu
    have hc1u : c1.2 ≤ cu.2 := hc0 cu hcu
    refine ⟨?_, ?_, ?_⟩
    · intro r hr
      rcases List.mem_cons.mp hr with hr | hr
      · subst hr
        exact le_trans hc1u hum
      · exact hle r hr
    · intro c0 h0
      exact le_trans hc1u (hu0 c0 h0)
    · rcases hmem with hm | hm
      · exact Or.inl (List.mem_cons_of_mem _ hm)
      · rw [hm] at hcu
        have hcc : c1 = cu := Option.some.inj hcu
        subst hcc
        rcases humem with hq | hq
        · exact Or.inl (by simp [hq])
        · exact Or.inr hq

theorem stepTriple_ok (cand : Option Cand) (p : Path) (ds : List String)
    (fs : List (String × StatRes))
    (h1 : fs.lookup "Data.db" ≠ some .permErr)
    (h2 : fs.lookup "Data.db" ≠ some .otherErr) :
    stepTriple cand (p, ds, fs) =
      .ok (foldMin cand
        (match fs.lookup "Data.db" with
         | some (.ok m) => [(p ++ ["Data.db"], m)]
         | _ => [])) := by
  cases hl : fs.lookup "Data.db" with
  | none => simp [stepTriple, hl, foldMin_nil]
  | some s =>
    cases s with
    | ok m => simp [stepTriple, hl, foldMin_cons, foldMin_nil]
    | notFound => simp [stepTriple, hl, foldMin_nil]
    | permErr => exact absurd hl h1
    | otherErr => exact absurd hl h2

mutual

theorem walkScan_ok : ∀ (p : Path) (n : Node) (cand : Option Cand),
    walkOk n = true →
    (walkScan p n cand).2 = .ok (foldMin cand (walkCands p n))
  | _, .file _, _, _ => by simp [walkScan, walkCands, foldMin_nil]
  | _, .dir (some _) _, _, _ => by simp [walkScan, walkCands, foldMin_nil]
  | _, .linkDir (some _) _, _, _ => by simp [walkScan, walkCands, foldMin_nil]
  | p, .dir none cs, cand, h => by
    cases hl : (fileEntries cs).lookup "Data.db" with
    | none =>
      have hkids : walkOkKids cs = true := by simpa [walkOk, hl] using h
      have hk := walkScanKids_ok p cs cand hkids
      simp [walkScan, stepTriple, hl, walkCands, hk]
    | some s =>
      cases s with
      | ok m =>
        have hkids : walkOkKids cs = true := by simpa [walkOk, hl] using h
        have hk := walkScanKids_ok p cs (updateMin cand (p ++ ["Data.db"]) m) hkids
        simp [walkScan, stepTriple, hl, walkCands, foldMin_cons, hk]
      | notFound =>
        have hkids : walkOkKids cs = true := by simpa [walkOk, hl] using h
        have hk := walkScanKids_ok p cs cand hkids
        simp [walkScan, stepTriple, hl, walkCands, hk]
      | permErr => simp [walkOk, hl] at h
      | otherErr => simp [walkOk, hl] at h
  | p, .linkDir none cs, cand, h => by
    cases hl : (fileEntries cs).lookup "Data.db" with
    | none =>
      have hkids : walkOkKids cs = true := by simpa [walkOk, hl] using h
      have hk := walkScanKids_ok p cs cand hkids
      simp [walkScan, stepTriple, hl, walkCands, hk]
    | some s =>
      cases s with
      | ok m =>
        have hkids : walkOkKids cs = true := by simpa [walkOk, hl] using h
        have hk := walkScanKids_ok p cs (updateMin cand (p ++ ["Data.db"]) m) hkids
        simp [walkScan, stepTriple, hl, walkCands, foldMin_cons, hk]
      | notFound =>
        have hkids : walkOkKids cs = true := by simpa [walkOk, hl] using h
        have hk := walkScanKids_ok p cs cand hkids
        simp [walkScan, stepTriple, hl, walkCands, hk]
      | permErr => simp [walkOk, hl] at h
      | otherErr => simp [walkOk, hl] at h

theorem walkScanKids_ok : ∀ (p : Path) (cs : List (String × Node)) (cand : Option Cand),
    walkOkKids cs = true →
    (walkScanKids p cs cand).2 = .ok (foldMin cand (walkCandsKids p cs))
  | _, [], _, _ => by simp [walkScanKids, walkCandsKids, foldMin_nil]
  | p, (name, c) :: rest, cand, h => by
    have h1 : (!(isRealDir c) || walkOk c) = true ∧ walkOkKids rest = true := by
      simpa [walkOkKids] using h
    cases hd : isRealDir c with
    | false =>
      have hr := walkScanKids_ok p rest cand h1.2
      simp [walkScanKids, walkCandsKids, hd, hr]
    | true =>
      have hwc : walkOk c = true := by
        have := h1.1
        simpa [hd] using this
      have hw := walkScan_ok (p ++ [name]) c cand hwc
      cases hwp : walkScan (p ++ [name]) c cand with
      | mk tr res =>
        rw [hwp] at hw
        simp only at hw
        subst hw
        have hr := walkScanKids_ok p rest (foldMin cand (walkCands (p ++ [name]) c)) h1.2
        simp [walkScanKids, hd, hwp, walkCandsKids, foldMin_append, hr]

end

theorem scanTables_ok (p : Path) :
    ∀ (cs : List (String × Node)) (cand : Option Cand),
    tablesOk cs = true →
    (scanTables p cs cand).2 = .ok (foldMin cand (scanTablesCands p cs)) := by
  intro cs
  induction cs with
  | nil => intro cand _; simp [scanTables, scanTablesCands, foldMin_nil]
  | cons hd rest ih =>
    obtain ⟨name, c⟩ := hd
    intro cand h
    have h1 : (!(isDirLike c) || walkOk c) = true ∧ tablesOk rest = true := by
      simpa [tablesOk] using h
    cases hdl : isDirLike c with
    | false => simp [scanTables, scanTablesCands, hdl, ih cand h1.2]
    | true =>
      have hwc : walkOk c = true := by
        have := h1.1
        simpa [hdl] using this
      have hw := walkScan_ok (p ++ [name]) c cand hwc
      cases hwp : walkScan (p ++ [name]) c cand with
      | mk tr res =>
        rw [hwp] at hw
        simp only at hw
        subst hw
        have hr := ih (foldMin cand (walkCands (p ++ [name]) c)) h1.2
        simp [scanTables, hdl, hwp, scanTablesCands, foldMin_append, hr]

theorem scanKeyspaces_ok (p : Path) (excl : List String) :
    ∀ (cs : List (String × Node)) (cand : Option Cand),
    keyspacesOk excl cs = true →
    (scanKeyspaces p excl cs cand).2 = .ok (foldMin cand (scanKeyspacesCands p excl cs)) := by
  intro cs
  induction cs with
  | nil => intro cand _; simp [scanKeyspaces, scanKeyspacesCands, foldMin_nil]
  | cons hd rest ih =>
    obtain ⟨name, c⟩ := hd
    intro cand h
    have h1 : (!(isDirLike c) || excl.contains name ||
        ((nodeChildren c).1 == none && tablesOk (nodeChildren c).2)) = true ∧
        keyspacesOk excl rest = true := by
      simpa [keyspacesOk] using h
    cases hskip : (!(isDirLike c) || excl.contains name) with
    | true =>
      have hP : isDirLike c = false ∨ name ∈ excl := by simpa using hskip
      simp [scanKeyspaces, scanKeyspacesCands, hP, ih cand h1.2]
    | false =>
      have hd : isDirLike c = true := by
        have := hskip
        simp only [Bool.or_eq_false_iff, Bool.not_eq_false'] at this
        exact this.1
      have hnin : ¬(name ∈ excl) := by
        have := hskip
        simp only [Bool.or_eq_false_iff] at this
        simpa using this.2
      have hok : ((nodeChildren c).1 == none && tablesOk (nodeChildren c).2) = true := by
        have h' := h1.1
        rw [hskip] at h'
        simpa using h'
      have hperm : (nodeChildren c).1 = none := by
        have := (Bool.and_eq_true _ _).mp hok
        simpa using this.1
      have htab : tablesOk (nodeChildren c).2 = true :=
        ((Bool.and_eq_true _ _).mp hok).2
      have hw := scanTables_ok (p ++ [name]) (nodeChildren c).2 cand htab
      cases hwp : scanTables (p ++ [name]) (nodeChildren c).2 cand with
      | mk tr res =>
        rw [hwp] at hw
        simp only at hw
        subst hw
        have hr := ih (foldMin cand (scanTablesCands (p ++ [name]) (nodeChildren c).2)) h1.2
        simp [scanKeyspaces, scanKeyspacesCands, hd, hnin, hperm, hwp, foldMin_append, hr]

theorem find_oldest_ok (root : Option Node) (excl : List String)
    (h : scanOk root excl = true) :
    (find_oldest_sstable_globally root excl).1 =
      match foldMin none (candidates root excl) with
      | some c => .found c.1 c.2
      | none => .noneFound base_cassandra_path := by
  match root with
  | none => simp [scanOk] at h
  | some n =>
    have hdl : isDirLike n = true := by
      cases n <;> simp_all [scanOk, isDirLike]
    have hperm : (nodeChildren n).1 = none := by
      cases n <;> simp_all [scanOk, nodeChildren]
    have hks : keyspacesOk excl (nodeChildren n).2 = true := by
      cases n <;> simp_all [scanOk, nodeChildren]
    have hw := scanKeyspaces_ok [base_cassandra_path] excl (nodeChildren n).2 none hks
    cases hwp : scanKeyspaces [base_cassandra_path] excl (nodeChildren n).2 none with
    | mk tr res =>
      rw [hwp] at hw
      simp only at hw
      subst hw
      simp only [find_oldest_sstable_globally, hdl, if_true, hperm, hwp,
        candidates, hdl]
      cases hf : foldMin none (scanKeyspacesCands [base_cassandra_path] excl (nodeChildren n).2) with
      | none => simp
      | some c => simp

theorem endsData_none : endsData none := by
  intro p t h
  simp at h

theorem updateMin_endsData (cand : Option Cand) (q : Path) (m : Int)
    (hc : endsData cand) (hq : q.getLast? = some "Data.db") :
    endsData (updateMin cand q m) := by
  intro p t h
  cases cand with
  | none =>
    simp only [updateMin, Option.some.injEq, Prod.mk.injEq] at h
    rw [← h.1]
    exact hq
  | some c0 =>
    obtain ⟨p0, m0⟩ := c0
    by_cases hm : m < m0 <;>
      simp only [updateMin, hm, if_true, if_false, Option.some.injEq, Prod.mk.injEq] at h
    · rw [← h.1]
      exact hq
    · rw [← h.1]
      exact hc p0 m0 rfl

theorem stepTriple_endsData (cand : Option Cand) (t : Triple)
    (hc : endsData cand) :
    ∀ c', stepTriple cand t = .ok c' → endsData c' := by
  intro c' h
  unfold stepTriple at h
  cases hl : (t.2.2).lookup "Data.db" with
  | none =>
    rw [hl] at h
    cases h
    exact hc
  | some s =>
    rw [hl] at h
    cases s with
    | ok m =>
      cases h
      exact updateMin_endsData cand _ m hc (List.getLast?_concat t.1)
    | notFound =>
      cases h
      exact hc
    | permErr => cases h
    | otherErr => cases h

mutual

theorem walkScan_endsData : ∀ (p : Path) (n : Node) (cand : Option Cand),
    endsData cand →
    ∀ c', (walkScan p n cand).2 = .ok c' → endsData c'
  | p, .file _, cand, hc, c', h => by
    simp only [walkScan] at h
    cases h
    exact hc
  | p, .dir (some _) _, cand, hc, c', h => by
    simp only [walkScan] at h
    cases h
    exact hc
  | p, .linkDir (some _) _, cand, hc, c', h => by
    simp only [walkScan] at h
    cases h
    exact hc
  | p, .dir none cs, cand, hc, c', h => by
    simp only [walkScan] at h
    cases hst : stepTriple cand (p, dirNames cs, fileEntries cs) with
    | error e => rw [hst] at h; cases h
    | ok c =>
      rw [hst] at h
      simp only at h
      exact walkScanKids_endsData p cs c
        (stepTriple_endsData cand _ hc c hst) c' h
  | p, .linkDir none cs, cand, hc, c', h => by
    simp only [walkScan] at h
    cases hst : stepTriple cand (p, dirNames cs, fileEntries cs) with
    | error e => rw [hst] at h; cases h
    | ok c =>
      rw [hst] at h
      simp only at h
      exact walkScanKids_endsData p cs c
        (stepTriple_endsData cand _ hc c hst) c' h

theorem walkScanKids_endsData : ∀ (p : Path) (cs : List (String × Node)) (cand : Option Cand),
    endsData cand →
    ∀ c', (walkScanKids p cs cand).2 = .ok c' → endsData c'
  | p, [], cand, hc, c', h => by
    simp only [walkScanKids] at h
    cases h
    exact hc
  | p, (name, c) :: rest, cand, hc, c', h => by
    simp only [walkScanKids] at h
    cases hd : isRealDir c with
    | false =>
      rw [hd] at h
      simp only [Bool.false_eq_true, if_false] at h
      exact walkScanKids_endsData p rest cand hc c' h
    | true =>
      rw [hd] at h
      simp only [if_true] at h
      cases hwp : walkScan (p ++ [name]) c cand with
      | mk tr res =>
        rw [hwp] at h
        cases res with
        | error e => simp only at h; cases h
        | ok c2 =>
          simp only at h
          exact walkScanKids_endsData p rest c2
            (walkScan_endsData (p ++ [name]) c cand hc c2 (by rw [hwp])) c' h

end

theorem scanTables_endsData (p : Path) :
    ∀ (cs : List (String × Node)) (cand : Option Cand),
    endsData cand →
    ∀ c', (scanTables p cs cand).2 = .ok c' → endsData c' := by
  intro cs
  induction cs with
  | nil =>
    intro cand hc c' h
    simp only [scanTables] at h
    cases h
    exact hc
  | cons hd rest ih =>
    obtain ⟨name, c⟩ := hd
    intro cand hc c' h
    simp only [scanTables] at h
    cases hdl : isDirLike c with
    | false =>
      rw [hdl] at h
      simp only [Bool.false_eq_true, if_false] at h
      exact ih cand hc c' h
    | true =>
      rw [hdl] at h
      simp only [if_true] at h
      cases hwp : walkScan (p ++ [name]) c cand with
      | mk tr res =>
        rw [hwp] at h
        cases res with
        | error e => simp only at h; cases h
        | ok c2 =>
          simp only at h
          exact ih c2
            (walkScan_endsData (p ++ [name]) c cand hc c2 (by rw [hwp])) c' h

theorem scanKeyspaces_endsData (p : Path) (excl : List String) :
    ∀ (cs : List (String × Node)) (cand : Option Cand),
    endsData cand →
    ∀ c', (scanKeyspaces p excl cs cand).2 = .ok c' → endsData c' := by
  intro cs
  induction cs with
  | nil =>
    intro cand hc c' h
    simp only [scanKeyspaces] at h
    cases h
    exact hc
  | cons hd rest ih =>
    obtain ⟨name, c⟩ := hd
    intro cand hc c' h
    simp only [scanKeyspaces] at h
    by_cases hskip : isDirLike c = false ∨ name ∈ excl
    · rw [if_pos (by simpa using hskip)] at h
      exact ih cand hc c' h
    · rw [if_neg (by simpa using hskip)] at h
      cases hperm : (nodeChildren c).1 with
      | some e =>
        rw [hperm] at h
        cases h
      | none =>
        rw [hperm] at h
        cases hwp : scanTables (p ++ [name]) (nodeChildren c).2 cand with
        | mk tr res =>
          rw [hwp] at h
          cases res with
          | error e => simp only at h; cases h
          | ok c2 =>
            simp only at h
            exact ih c2
              (scanTables_endsData (p ++ [name]) _ cand hc c2 (by rw [hwp])) c' h

theorem scanKeyspaces_excluded (p : Path) (excl : List String) (name : String)
    (n : Node) (hmem : name ∈ excl) :
    ∀ (pre post : List (String × Node)) (cand : Option Cand),
    scanKeyspaces p excl (pre ++ (name, n) :: post) cand =
      scanKeyspaces p excl (pre ++ post) cand := by
  intro pre
  induction pre with
  | nil =>
    intro post cand
    simp only [List.nil_append]
    simp [scanKeyspaces, hmem]
  | cons hd pre ih =>
    obtain ⟨k, c⟩ := hd
    intro post cand
    simp only [List.cons_append, scanKeyspaces]
    by_cases hskip : isDirLike c = false ∨ k ∈ excl
    · rw [if_pos (by simpa using hskip), if_pos (by simpa using hskip)]
      exact ih post cand
    · rw [if_neg (by simpa using hskip), if_neg (by simpa using hskip)]
      cases hperm : (nodeChildren c).1 with
      | some e => rfl
      | none =>
        cases hwp : scanTables (p ++ [k]) (nodeChildren c).2 cand with
        | mk tr res =>
          cases res with
          | error e => rfl
          | ok c2 =>
            simp only [List.append_eq]
            rw [ih post c2]

theorem scanKeyspacesCands_excluded (p : Path) (excl : List String) (name : String)
    (n : Node) (hmem : name ∈ excl) :
    ∀ (pre post : List (String × Node)),
    scanKeyspacesCands p excl (pre ++ (name, n) :: post) =
      scanKeyspacesCands p excl (pre ++ post) := by
  intro pre
  induction pre with
  | nil =>
    intro post
    simp only [List.nil_append]
    simp [scanKeyspacesCands, hmem]
  | cons hd pre ih =>
    obtain ⟨k, c⟩ := hd
    intro post
    simp only [List.cons_append, scanKeyspacesCands, List.append_eq]
    rw [ih post]

theorem scanKeyspaces_err_head (p : Path) (excl : List String) (k : String)
    (e : FsErr) (ccs rest : List (String × Node)) (cand : Option Cand)
    (hk : k ∉ excl) :
    scanKeyspaces p excl ((k, .dir (some e) ccs) :: rest) cand =
      ([p ++ [k]], .error e) := by
  simp [scanKeyspaces, isDirLike, nodeChildren, hk]

theorem walkScan_linkDir_eq (p : Path) (perm : Option FsErr)
    (cs : List (String × Node)) (cand : Option Cand) :
    walkScan p (.linkDir perm cs) cand = walkScan p (.dir perm cs) cand := by
  cases perm <;> rfl

/-- C1: on a scan that starts and never aborts, if at least one candidate
was observed then the reported result is a candidate whose timestamp is at
most every observed candidate timestamp, and under pairwise-distinct
timestamps it is exactly the unique oldest candidate. -/
theorem oldest_candidate_reported (root : Option Node) (excl : List String)
    (hok : scanOk root excl = true)
    (hne : candidates root excl ≠ []) :
    ∃ p t, (find_oldest_sstable_globally root excl).1 = .found p t ∧
      (p, t) ∈ candidates root excl ∧
      (∀ q ∈ candidates root excl, t ≤ q.2) ∧
      ((candidates root excl).Pairwise (fun a b => a.2 ≠ b.2) →
        ∀ q ∈ candidates root excl, q ≠ (p, t) → t < q.2) := by
  have hs := foldMin_isSome (candidates root excl) none (Or.inl hne)
  obtain ⟨c1, hc1⟩ := Option.isSome_iff_exists.mp hs
  have hout := find_oldest_ok root excl hok
  rw [hc1] at hout
  simp only at hout
  obtain ⟨hle, _, hmem⟩ := foldMin_spec (candidates root excl) none c1 hc1
  have hmem' : c1 ∈ candidates root excl := by
    rcases hmem with h | h
    · exact h
    · simp at h
  refine ⟨c1.1, c1.2, hout, by simpa using hmem', fun q hq => hle q hq, ?_⟩
  intro hpw q hq hne'
  have hne2 : c1 ≠ q := by
    intro he
    rw [← he] at hne'
    simp at hne'
  have hr := List.Pairwise.forall
    (R := fun a b : Cand => a.2 ≠ b.2) (fun a b h => h.symm) hpw hmem' hq hne2
  exact lt_of_le_of_ne (hle q hq) hr

theorem oldest_candidate_reported_witness :
    ∃ p t, (find_oldest_sstable_globally (some exampleTwoTimes) system_keyspaces).1
        = .found p t ∧
      (p, t) ∈ candidates (some exampleTwoTimes) system_keyspaces ∧
      (∀ q ∈ candidates (some exampleTwoTimes) system_keyspaces, t ≤ q.2) ∧
      ((candidates (some exampleTwoTimes) system_keyspaces).Pairwise
          (fun a b => a.2 ≠ b.2) →
        ∀ q ∈ candidates (some exampleTwoTimes) system_keyspaces,
          q ≠ (p, t) → t < q.2) :=
  oldest_candidate_reported (some exampleTwoTimes) system_keyspaces
    (by decide) (by decide)

/-- C5: the running minimum is updated only on a strictly smaller
timestamp (so the first of two equal timestamps is kept), the first
candidate always becomes the current minimum, and on a tree with two
equal-timestamp target files the scan reports the first-encountered one. -/
theorem strict_less_tiebreak :
    (∀ (p0 : Path) (m0 : Int) (p : Path) (m : Int), m0 ≤ m →
      updateMin (some (p0, m0)) p m = some (p0, m0)) ∧
    (∀ (p : Path) (m : Int), updateMin none p m = some (p, m)) ∧
    (find_oldest_sstable_globally (some exampleTie) system_keyspaces).1 =
      .found ["/mnt/cassandra", "ks1", "t1", "Data.db"] 7 := by
  refine ⟨?_, ?_, by decide⟩
  · intro p0 m0 p m h
    simp [updateMin, if_neg (not_lt.mpr h)]
  · intro p m
    rfl

theorem strict_less_tiebreak_witness :
    updateMin (some (["a"], 3)) ["b"] 3 = some (["a"], 3) ∧
    updateMin none ["b"] 3 = some (["b"], 3) :=
  ⟨strict_less_tiebreak.1 ["a"] 3 ["b"] 3 (by decide),
   strict_less_tiebreak.2.1 ["b"] 3⟩

/-- C6: when the scan root is missing or is not a directory, the run ends
at once with the configuration error naming the base path, no directory
listing is attempted, and no candidate is observed. -/
theorem missing_root_config_error (root : Option Node) (excl : List String)
    (h : root = none ∨ ∃ s, root = some (.file s)) :
    find_oldest_sstable_globally root excl =
      (.configError base_cassandra_path, []) ∧
    candidates root excl = [] := by
  rcases h with h | ⟨s, h⟩ <;> subst h <;> exact ⟨rfl, rfl⟩

theorem missing_root_config_error_witness :
    find_oldest_sstable_globally none system_keyspaces =
      (.configError base_cassandra_path, []) ∧
    candidates none system_keyspaces = [] :=
  missing_root_config_error none system_keyspaces (Or.inl rfl)

/-- C2 counterexample: a table subdirectory whose listing fails with a
permission error does not abort the scan; the walk silently skips it (it
held the oldest file) and the scan reports the younger survivor. -/
theorem walk_permission_swallowed_counterexample :
    (find_oldest_sstable_globally (some examplePermDeep) system_keyspaces).1 =
      .found ["/mnt/cassandra", "ks", "t", "Data.db"] 10 ∧
    ¬((find_oldest_sstable_globally (some examplePermDeep) system_keyspaces).1 =
      .permissionDenied) :=
  ⟨by decide, by decide⟩

/-- C2 amended: a permission failure while listing the base directory or a
scanned keyspace directory aborts the whole scan as permission denied, but
a listing failure met inside the recursive walk of a table subtree is
silently swallowed and the scan continues without that subtree. -/
theorem permission_abort_policy :
    (∀ (cs : List (String × Node)) (excl : List String),
      find_oldest_sstable_globally (some (.dir (some .perm) cs)) excl =
        (.permissionDenied, [[base_cassandra_path]])) ∧
    (∀ (p : Path) (excl : List String) (k : String)
        (ccs rest : List (String × Node)) (cand : Option Cand),
      k ∉ excl →
      scanKeyspaces p excl ((k, .dir (some .perm) ccs) :: rest) cand =
        ([p ++ [k]], .error .perm)) ∧
    (∀ (excl : List String) (k : String) (ccs rest : List (String × Node)),
      k ∉ excl →
      (find_oldest_sstable_globally
          (some (.dir none ((k, .dir (some .perm) ccs) :: rest))) excl).1 =
        .permissionDenied) ∧
    (∀ (p : Path) (name : String) (e : FsErr)
        (cs rest : List (String × Node)) (cand : Option Cand),
      (walkScanKids p ((name, .dir (some e) cs) :: rest) cand).2 =
        (walkScanKids p rest cand).2) := by
  refine ⟨fun cs excl => rfl, ?_, ?_, ?_⟩
  · intro p excl k ccs rest cand hk
    exact scanKeyspaces_err_head p excl k .perm ccs rest cand hk
  · intro excl k ccs rest hk
    have h := scanKeyspaces_err_head [base_cassandra_path] excl k .perm ccs rest none hk
    simp [find_oldest_sstable_globally, isDirLike, nodeChildren, h]
  · intro p name e cs rest cand
    simp [walkScanKids, isRealDir, walkScan]

theorem permission_abort_policy_witness :
    scanKeyspaces ["/mnt/cassandra"] system_keyspaces
        [("ks", .dir (some .perm) [])] none =
      (["/mnt/cassandra", "ks"] :: [], .error .perm) ∧
    (find_oldest_sstable_globally
        (some (.dir none [("ks", .dir (some .perm) [])])) system_keyspaces).1 =
      .permissionDenied :=
  ⟨permission_abort_policy.2.1 ["/mnt/cassandra"] system_keyspaces "ks" [] [] none
     (by decide),
   permission_abort_policy.2.2.1 system_keyspaces "ks" [] [] (by decide)⟩

/-- C3 counterexample: a target file whose modification-time read fails
with a permission error is not skipped; the scan aborts as permission
denied instead of continuing to the younger surviving file. -/
theorem metadata_error_aborts_counterexample :
    (find_oldest_sstable_globally (some (exampleStat .permErr)) system_keyspaces).1 =
      .permissionDenied ∧
    ¬((find_oldest_sstable_globally (some (exampleStat .permErr)) system_keyspaces).1 =
      .found ["/mnt/cassandra", "ks", "t2", "Data.db"] 10) :=
  ⟨by decide, by decide⟩

/-- C3 amended: only a FileNotFoundError while reading a modification time
is skipped with the scan continuing; a PermissionError there aborts the
scan as permission denied, and any other metadata-read error aborts it as
an unexpected error. -/
theorem metadata_error_policy :
    (∀ (cand : Option Cand) (p : Path) (ds : List String)
        (fs : List (String × StatRes)),
      stepTriple cand (p, ds, ("Data.db", .notFound) :: fs) = .ok cand) ∧
    (∀ (cand : Option Cand) (p : Path) (ds : List String)
        (fs : List (String × StatRes)),
      stepTriple cand (p, ds, ("Data.db", .permErr) :: fs) = .error .perm) ∧
    (∀ (cand : Option Cand) (p : Path) (ds : List String)
        (fs : List (String × StatRes)),
      stepTriple cand (p, ds, ("Data.db", .otherErr) :: fs) = .error .other) ∧
    (find_oldest_sstable_globally (some (exampleStat (.ok 5))) system_keyspaces).1 =
      .found ["/mnt/cassandra", "ks", "t1", "Data.db"] 5 ∧
    (find_oldest_sstable_globally (some (exampleStat .notFound)) system_keyspaces).1 =
      .found ["/mnt/cassandra", "ks", "t2", "Data.db"] 10 ∧
    (find_oldest_sstable_globally (some (exampleStat .permErr)) system_keyspaces).1 =
      .permissionDenied ∧
    (find_oldest_sstable_globally (some (exampleStat .otherErr)) system_keyspaces).1 =
      .unexpectedError :=
  ⟨fun cand p ds fs => rfl, fun cand p ds fs => rfl, fun cand p ds fs => rfl,
   by decide, by decide, by decide, by decide⟩

/-- C7: a target file that vanishes between listing and stat is skipped
with the running minimum unchanged, and the scan completes reporting the
true oldest among the remaining files. -/
theorem vanished_file_skipped (cand : Option Cand) (p : Path)
    (ds : List String) (fs : List (String × StatRes))
    (h : fs.lookup "Data.db" = some .notFound) :
    stepTriple cand (p, ds, fs) = .ok cand ∧
    (find_oldest_sstable_globally (some exampleVanish) system_keyspaces).1 =
      .found ["/mnt/cassandra", "ks", "t3", "Data.db"] 20 := by
  constructor
  · simp [stepTriple, h]
  · decide

theorem vanished_file_skipped_witness :
    stepTriple none ([], [], [("Data.db", .notFound)]) = .ok none ∧
    (find_oldest_sstable_globally (some exampleVanish) system_keyspaces).1 =
      .found ["/mnt/cassandra", "ks", "t3", "Data.db"] 20 :=
  vanished_file_skipped none [] [] [("Data.db", .notFound)] (by decide)

/-- C4: a top-level child whose name is in the excluded set is removed
with its whole subtree: the scan outcome, the trace, and the observed
candidates are those of the tree without that child, whatever its subtree
holds. -/
theorem excluded_namespace_removed (excl : List String) (name : String)
    (n : Node) (perm : Option FsErr) (pre post : List (String × Node))
    (hmem : name ∈ excl) :
    find_oldest_sstable_globally
        (some (.dir perm (pre ++ (name, n) :: post))) excl =
      find_oldest_sstable_globally (some (.dir perm (pre ++ post))) excl ∧
    candidates (some (.dir perm (pre ++ (name, n) :: post))) excl =
      candidates (some (.dir perm (pre ++ post))) excl := by
  constructor
  · cases perm with
    | some e => cases e <;> rfl
    | none =>
      simp only [find_oldest_sstable_globally, isDirLike, nodeChildren, if_true]
      rw [scanKeyspaces_excluded _ _ _ _ hmem]
  · cases perm with
    | some e => rfl
    | none =>
      simp only [candidates, isDirLike, nodeChildren, if_true]
      rw [scanKeyspacesCands_excluded _ _ _ _ hmem]

theorem excluded_namespace_removed_witness :
    find_oldest_sstable_globally (some exampleExcluded) system_keyspaces =
      find_oldest_sstable_globally
        (some (.dir none
          [("ks", .dir none [("t", .dir none [("Data.db", .file (.ok 100))])])]))
        system_keyspaces ∧
    candidates (some exampleExcluded) system_keyspaces =
      candidates
        (some (.dir none
          [("ks", .dir none [("t", .dir none [("Data.db", .file (.ok 100))])])]))
        system_keyspaces :=
  excluded_namespace_removed system_keyspaces "system"
    (.dir none [("t", .dir none [("Data.db", .file (.ok 1))])]) none []
    [("ks", .dir none [("t", .dir none [("Data.db", .file (.ok 100))])])]
    (by decide)

/-- C8: whenever the scan reports a found file, the basename of the
reported path is exactly the target filename Data.db. -/
theorem result_basename_is_target (root : Option Node) (excl : List String)
    (p : Path) (t : Int)
    (h : (find_oldest_sstable_globally root excl).1 = .found p t) :
    p.getLast? = some "Data.db" := by
  cases root with
  | none => simp [find_oldest_sstable_globally] at h
  | some n =>
    cases hdl : isDirLike n with
    | false => simp [find_oldest_sstable_globally, hdl] at h
    | true =>
      cases hperm : (nodeChildren n).1 with
      | some e => cases e <;> simp [find_oldest_sstable_globally, hdl, hperm] at h
      | none =>
        cases hwp : scanKeyspaces [base_cassandra_path] excl (nodeChildren n).2 none with
        | mk tr res =>
          simp only [find_oldest_sstable_globally, hdl, if_true, hperm, hwp] at h
          cases res with
          | error e => cases e <;> simp at h
          | ok c =>
            cases c with
            | none => simp at h
            | some cc =>
              obtain ⟨pp, tt⟩ := cc
              simp only [ScanOutcome.found.injEq] at h
              obtain ⟨hp, ht⟩ := h
              rw [← hp]
              exact scanKeyspaces_endsData [base_cassandra_path] excl
                (nodeChildren n).2 none endsData_none (some (pp, tt))
                (by rw [hwp]) pp tt rfl

theorem result_basename_is_target_witness :
    (["/mnt/cassandra", "ks1", "t1", "Data.db"] : Path).getLast? =
      some "Data.db" :=
  result_basename_is_target (some exampleTie) system_keyspaces
    ["/mnt/cassandra", "ks1", "t1", "Data.db"] 7 (by decide)

/-- C9: a scan that starts and never aborts, observing no candidate,
reports the explicit none-found outcome naming the base path, an outcome
distinct from every error outcome. -/
theorem none_found_reported (root : Option Node) (excl : List String)
    (hok : scanOk root excl = true)
    (hnone : candidates root excl = []) :
    (find_oldest_sstable_globally root excl).1 =
      .noneFound base_cassandra_path ∧
    (∀ s, ScanOutcome.noneFound base_cassandra_path ≠ .configError s) ∧
    ScanOutcome.noneFound base_cassandra_path ≠ .permissionDenied ∧
    ScanOutcome.noneFound base_cassandra_path ≠ .unexpectedError := by
  refine ⟨?_, by intro s; simp, by simp, by simp⟩
  have hout := find_oldest_ok root excl hok
  rw [hnone] at hout
  simpa using hout

theorem none_found_reported_witness :
    (find_oldest_sstable_globally
        (some (.dir none
          [("system", .dir none [("t", .dir none [("Data.db", .file (.ok 1))])])]))
        system_keyspaces).1 =
      .noneFound base_cassandra_path ∧
    (∀ s, ScanOutcome.noneFound base_cassandra_path ≠ .configError s) ∧
    ScanOutcome.noneFound base_cassandra_path ≠ .permissionDenied ∧
    ScanOutcome.noneFound base_cassandra_path ≠ .unexpectedError :=
  none_found_reported
    (some (.dir none
      [("system", .dir none [("t", .dir none [("Data.db", .file (.ok 1))])])]))
    system_keyspaces (by decide) (by decide)

/-- C10: a symbolic link to a directory passes the directory test and is
followed at the keyspace and table levels, but the recursive walk neither
descends into nor collects candidates from link children inside a table
subtree, so a target file reachable only through such a deep link is never
a candidate. -/
theorem symlink_handling :
    (∀ (perm : Option FsErr) (cs : List (String × Node)),
      isDirLike (.linkDir perm cs) = true) ∧
    (∀ (p : Path) (excl : List String) (name : String) (perm : Option FsErr)
        (cs rest : List (String × Node)) (cand : Option Cand),
      scanKeyspaces p excl ((name, .linkDir perm cs) :: rest) cand =
        scanKeyspaces p excl ((name, .dir perm cs) :: rest) cand) ∧
    (∀ (p : Path) (perm : Option FsErr) (cs : List (String × Node))
        (cand : Option Cand),
      walkScan p (.linkDir perm cs) cand = walkScan p (.dir perm cs) cand) ∧
    (∀ (p : Path) (name : String) (perm : Option FsErr)
        (cs rest : List (String × Node)) (cand : Option Cand),
      scanTables p ((name, .linkDir perm cs) :: rest) cand =
        scanTables p ((name, .dir perm cs) :: rest) cand) ∧
    (∀ (p : Path) (name : String) (perm : Option FsErr)
        (cs rest : List (String × Node)) (cand : Option Cand),
      walkScanKids p ((name, .linkDir perm cs) :: rest) cand =
        walkScanKids p rest cand) ∧
    (∀ (p : Path) (name : String) (perm : Option FsErr)
        (cs rest : List (String × Node)),
      walkCandsKids p ((name, .linkDir perm cs) :: rest) =
        walkCandsKids p rest) ∧
    (find_oldest_sstable_globally (some exampleDeepLink) system_keyspaces).1 =
      .noneFound base_cassandra_path := by
  refine ⟨fun perm cs => rfl, ?_, ?_, ?_, ?_, ?_, by decide⟩
  · intro p excl name perm cs rest cand
    cases perm <;> rfl
  · intro p perm cs cand
    exact walkScan_linkDir_eq p perm cs cand
  · intro p name perm cs rest cand
    simp only [scanTables, isDirLike, if_true]
    rw [walkScan_linkDir_eq]
  · intro p name perm cs rest cand
    simp [walkScanKids, isRealDir]
  · intro p name perm cs rest
    simp [walkCandsKids, isRealDir]

end FindOldestSSTable
